import Mathlib

/-!
# Kernel launch wrapper: embedding of src/kernel_launch_wrapper.h

The header defines one function template, cuda::launchKernel, whose body
(the branch compiled when __CUDACC__ is defined) is the single statement

    kernel_function<<<grid_dimensions, block_dimensions,
                      shared_memory_size, stream>>>(parameters...);

The embedding records what a call does as a trace of runtime effects and a
returned value.  The launch primitive itself belongs to the CUDA toolchain, not
to the header, so its meaning is a parameter (a Runtime); the stream-queue
reading of it used by two statements is given separately and marked as such.

Machine integers are natural numbers with explicit reduction modulo 2^w:
* unsigned (the type of shared_memory_size) is 32 bits wide;
* size_t (the type of the third launch-configuration operand) is
  size_t_bits wide, a parameter of the embedding.
-/

namespace cuda

/-! ## Data model -/

/-- Width in bits of the C++ type unsigned on the platforms nvcc targets. -/
def unsigned_bits : Nat := 32

/-- Conversion of an integer value to the type unsigned. -/
def to_unsigned (n : Nat) : Nat := n % 2 ^ unsigned_bits

/-- Conversion of an integer value to size_t, for a size_t of the given width. -/
def to_size_t (size_t_bits : Nat) (n : Nat) : Nat := n % 2 ^ size_t_bits

/-- The CUDA type dim3: three unsigned extents. -/
structure dim3 where
  x : Nat
  y : Nat
  z : Nat
deriving DecidableEq

/-- What the launch primitive receives: the operands of
kernel<<<Dg, Db, Ns, S>>>(args...).  K is the type of kernels, Q the type of
stream handles (cudaStream_t), A the type of kernel argument values. -/
structure LaunchRequest (K Q A : Type) where
  kernel : K
  gridDim : dim3
  blockDim : dim3
  sharedMem : Nat
  stream : Q
  args : List A
deriving DecidableEq

/-- The effects host code can have on the CUDA runtime, as far as the
wrapper's documentation and the specification speak of them. -/
inductive Effect (K Q A : Type) where
  /-- one execution of the launch primitive -/
  | launch (request : LaunchRequest K Q A)
  /-- a query of the runtime error status (cudaGetLastError and the like) -/
  | errorQuery
  /-- a wait for a stream (some q) or for the whole device (none) -/
  | synchronize (target : Option Q)
  /-- a logging command or hook -/
  | log
deriving DecidableEq

/-- The outcome of running a host function: the effects it performed, in order,
and the value it returned. -/
structure Outcome (K Q A R : Type) where
  trace : List (Effect K Q A)
  value : R

/-- Whether an effect is an execution of the launch primitive. -/
def Effect.isLaunch {K Q A : Type} : Effect K Q A → Bool
  | Effect.launch _ => true
  | _ => false

/-! ## The launch primitive and the wrapper -/

/-- The vendor launch statement kernel<<<Dg, Db, Ns, S>>>(args...): one
execution of the launch primitive.  Dg and Db are of type dim3, Ns is
converted to size_t, S is a stream handle. -/
def kernelLaunch {K Q A : Type} (size_t_bits : Nat)
    (kernel : K) (Dg Db : dim3) (Ns : Nat) (S : Q) (args : List A) :
    Effect K Q A :=
  Effect.launch
    { kernel := kernel, gridDim := Dg, blockDim := Db,
      sharedMem := to_size_t size_t_bits Ns, stream := S, args := args }

/-- The function template cuda::launchKernel.  The parameter shared_memory_size
has type unsigned, so the value the body sees is the argument reduced modulo
2^32; the other parameters are taken by value (or by const reference) and
reach the body unchanged.  The body is one launch statement; the function
returns void. -/
def launchKernel {K Q A : Type} (size_t_bits : Nat)
    (kernel_function : K)
    (grid_dimensions : dim3)
    (block_dimensions : dim3)
    (shared_memory_size : Nat)
    (stream : Q)
    (parameters : List A) : Outcome K Q A Unit :=
  { trace :=
      [kernelLaunch size_t_bits kernel_function grid_dimensions block_dimensions
        (to_unsigned shared_memory_size) stream parameters],
    value := () }

/-! ## Running traces against a runtime -/

/-- A runtime gives every effect its action on the runtime state. -/
abbrev Runtime (K Q A σ : Type) := Effect K Q A → σ → σ

/-- Run a trace of effects from a state, first effect first. -/
def exec {K Q A σ : Type} (rt : Runtime K Q A σ) :
    List (Effect K Q A) → σ → σ
  | [], st => st
  | e :: es, st => exec rt es (rt e st)

/-- The call launchKernel(r.kernel, r.gridDim, r.blockDim, r.sharedMem,
r.stream, r.args...) for a request record r. -/
def launchKernelOf {K Q A : Type} (size_t_bits : Nat) (r : LaunchRequest K Q A) :
    Outcome K Q A Unit :=
  launchKernel size_t_bits r.kernel r.gridDim r.blockDim r.sharedMem r.stream r.args

/-- The direct launch r.kernel<<<r.gridDim, r.blockDim, r.sharedMem,
r.stream>>>(r.args...) for a request record r. -/
def kernelLaunchOf {K Q A : Type} (size_t_bits : Nat) (r : LaunchRequest K Q A) :
    Effect K Q A :=
  kernelLaunch size_t_bits r.kernel r.gridDim r.blockDim r.sharedMem r.stream r.args

/-- Issue a sequence of calls of launchKernel one after another. -/
def launchAll {K Q A σ : Type} (size_t_bits : Nat) (rt : Runtime K Q A σ) :
    List (LaunchRequest K Q A) → σ → σ
  | [], st => st
  | r :: rs, st => launchAll size_t_bits rt rs (exec rt (launchKernelOf size_t_bits r).trace st)

/-- Issue a sequence of direct launches one after another. -/
def directAll {K Q A σ : Type} (size_t_bits : Nat) (rt : Runtime K Q A σ) :
    List (LaunchRequest K Q A) → σ → σ
  | [], st => st
  | r :: rs, st => directAll size_t_bits rt rs (rt (kernelLaunchOf size_t_bits r) st)

/-! ## Stream queues -/

/-- The pending launches of every stream. -/
abbrev Queues (K Q A : Type) := Q → List (LaunchRequest K Q A)

/-- Modelled from the spec: the launch primitive of the CUDA runtime, which the
header uses and does not define.  The spec says that a launch enqueues work on
the specified queue: the request is appended to the queue of its stream and the
queues of the other streams are left alone. -/
def enqueue {K Q A : Type} [DecidableEq Q] (r : LaunchRequest K Q A)
    (qs : Queues K Q A) : Queues K Q A :=
  fun q => if q = r.stream then qs q ++ [r] else qs q

/-- Modelled from the spec: a runtime whose state is the stream queues and whose
launch primitive is enqueue.  The action of the effects the wrapper never
performs is left to the parameter other. -/
def queueRuntime {K Q A : Type} [DecidableEq Q]
    (other : Effect K Q A → Queues K Q A → Queues K Q A) :
    Runtime K Q A (Queues K Q A)
  | Effect.launch r, qs => enqueue r qs
  | e, qs => other e qs

/-- The byte counts the launch primitive received in a trace, in order. -/
def receivedSharedMem {K Q A : Type} : List (Effect K Q A) → List Nat
  | [] => []
  | Effect.launch r :: es => r.sharedMem :: receivedSharedMem es
  | _ :: es => receivedSharedMem es

/-! ## Sample data -/

/-- A sample runtime whose state is the last error code: a launch with a zero
extent records the code 9 (invalid configuration), an error query resets the
code to 0, every other effect leaves it. -/
def errorCodeRuntime : Runtime Nat Nat Nat Nat
  | Effect.launch r, code =>
      if r.gridDim.x * r.gridDim.y * r.gridDim.z * (r.blockDim.x * r.blockDim.y * r.blockDim.z) = 0
      then 9 else code
  | Effect.errorQuery, _ => 0
  | _, code => code

/-- Three sample requests: two for stream 1 with one for stream 2 between them. -/
def sampleRequests : List (LaunchRequest Nat Nat Nat) :=
  [{ kernel := 10, gridDim := ⟨1, 1, 1⟩, blockDim := ⟨32, 1, 1⟩, sharedMem := 0,
     stream := 1, args := [1] },
   { kernel := 20, gridDim := ⟨2, 2, 1⟩, blockDim := ⟨16, 16, 1⟩, sharedMem := 4096,
     stream := 2, args := [] },
   { kernel := 30, gridDim := ⟨0, 1, 1⟩, blockDim := ⟨8, 1, 1⟩, sharedMem := 49152,
     stream := 1, args := [2, 3] }]

/-! ## Auxiliary facts -/

theorem to_unsigned_of_lt {s : Nat} (hs : s < 2 ^ 32) : to_unsigned s = s := by
  unfold to_unsigned unsigned_bits
  exact Nat.mod_eq_of_lt hs

theorem to_size_t_of_lt {w s : Nat} (hw : 32 ≤ w) (hs : s < 2 ^ 32) :
    to_size_t w s = s := by
  unfold to_size_t
  apply Nat.mod_eq_of_lt
  exact lt_of_lt_of_le hs (Nat.pow_le_pow_right (by decide) hw)

theorem launchKernel_trace_of_lt {K Q A : Type} (w : Nat) (k : K) (g b : dim3)
    (s : Nat) (q : Q) (args : List A) (hs : s < 2 ^ 32) :
    (launchKernel w k g b s q args).trace = [kernelLaunch w k g b s q args] := by
  simp [launchKernel, to_unsigned_of_lt hs]

theorem kernelLaunch_of_lt {K Q A : Type} (w : Nat) (hw : 32 ≤ w) (k : K)
    (g b : dim3) (s : Nat) (q : Q) (args : List A) (hs : s < 2 ^ 32) :
    kernelLaunch w k g b s q args =
      Effect.launch
        { kernel := k, gridDim := g, blockDim := b, sharedMem := s,
          stream := q, args := args } := by
  simp [kernelLaunch, to_size_t_of_lt hw hs]

theorem kernelLaunchOf_of_lt {K Q A : Type} (w : Nat) (hw : 32 ≤ w)
    (r : LaunchRequest K Q A) (hs : r.sharedMem < 2 ^ 32) :
    kernelLaunchOf w r = Effect.launch r := by
  unfold kernelLaunchOf
  rw [kernelLaunch_of_lt w hw _ _ _ _ _ _ hs]

theorem exec_launchKernelOf {K Q A σ : Type} (w : Nat) (rt : Runtime K Q A σ)
    (r : LaunchRequest K Q A) (st : σ) (hs : r.sharedMem < 2 ^ 32) :
    exec rt (launchKernelOf w r).trace st = rt (kernelLaunchOf w r) st := by
  unfold launchKernelOf kernelLaunchOf
  rw [launchKernel_trace_of_lt w _ _ _ _ _ _ hs]
  rfl

theorem launchAll_queues {K Q A : Type} [DecidableEq Q] (w : Nat) (hw : 32 ≤ w)
    (other : Effect K Q A → Queues K Q A → Queues K Q A)
    (rs : List (LaunchRequest K Q A)) (hrs : ∀ r ∈ rs, r.sharedMem < 2 ^ 32) :
    ∀ (qs : Queues K Q A) (q : Q),
      launchAll w (queueRuntime other) rs qs q
        = qs q ++ rs.filter (fun r => decide (r.stream = q)) := by
  induction rs with
  | nil => intro qs q; simp [launchAll]
  | cons r rs ih =>
    intro qs q
    have hr : r.sharedMem < 2 ^ 32 := hrs r (List.mem_cons_self r rs)
    have hrest : ∀ x ∈ rs, x.sharedMem < 2 ^ 32 :=
      fun x hx => hrs x (List.mem_cons_of_mem r hx)
    unfold launchAll
    rw [ih hrest, exec_launchKernelOf w _ r qs hr, kernelLaunchOf_of_lt w hw r hr]
    by_cases h : r.stream = q
    · have hq : q = r.stream := h.symm
      simp [queueRuntime, enqueue, h]
    · have hq : ¬ q = r.stream := fun e => h e.symm
      simp [queueRuntime, enqueue, h, hq]

/-! ## The wrapper against the direct launch -/

/-- C1: for every runtime, every starting state, every kernel k, grid extent g,
block extent b, shared-memory size s of type unsigned (s < 2^32), stream q and
argument list args, running launchKernel(k, g, b, s, q, args...) leaves the
runtime in the state in which the direct launch k<<<g, b, s, q>>>(args...)
leaves it. -/
theorem launchKernel_eq_direct_launch {K Q A σ : Type} (size_t_bits : Nat)
    (rt : Runtime K Q A σ) (st : σ) (k : K) (g b : dim3) (s : Nat) (q : Q)
    (args : List A) (hs : s < 2 ^ 32) :
    exec rt (launchKernel size_t_bits k g b s q args).trace st
      = rt (kernelLaunch size_t_bits k g b s q args) st := by
  rw [launchKernel_trace_of_lt size_t_bits k g b s q args hs]
  rfl

/-- Witness of C1: a launch of kernel 7 on stream 0 with 48 bytes of shared
memory, from empty queues. -/
theorem launchKernel_eq_direct_launch_witness :
    (48 : Nat) < 2 ^ 32 ∧
    exec (queueRuntime (fun _ qs => qs))
        (launchKernel 64 (7 : Nat) ⟨2, 1, 1⟩ ⟨128, 1, 1⟩ 48 (0 : Nat)
          [(10 : Nat), 20]).trace (fun _ => [])
      = queueRuntime (fun _ qs => qs)
          (kernelLaunch 64 (7 : Nat) ⟨2, 1, 1⟩ ⟨128, 1, 1⟩ 48 (0 : Nat)
            [(10 : Nat), 20]) (fun _ => []) :=
  ⟨by decide,
   launchKernel_eq_direct_launch 64 (queueRuntime (fun _ qs => qs))
     (fun _ => []) 7 ⟨2, 1, 1⟩ ⟨128, 1, 1⟩ 48 0 [10, 20] (by decide)⟩

/-- C2: the request handed to the launch primitive by
launchKernel(k, g, b, s, q, args...) has kernel k, grid extent g and block
extent b in all three components, shared-memory size s, stream q and argument
list args (same length, order and values, the empty list included); s is a value
of type unsigned and size_t is at least as wide. -/
theorem launchKernel_request_fields {K Q A : Type} (size_t_bits : Nat)
    (hw : 32 ≤ size_t_bits) (k : K) (g b : dim3) (s : Nat) (q : Q)
    (args : List A) (hs : s < 2 ^ 32) :
    ∃ r : LaunchRequest K Q A,
      (launchKernel size_t_bits k g b s q args).trace = [Effect.launch r] ∧
      r.kernel = k ∧
      (r.gridDim.x = g.x ∧ r.gridDim.y = g.y ∧ r.gridDim.z = g.z) ∧
      (r.blockDim.x = b.x ∧ r.blockDim.y = b.y ∧ r.blockDim.z = b.z) ∧
      r.sharedMem = s ∧
      r.stream = q ∧
      r.args = args ∧ r.args.length = args.length := by
  refine ⟨{ kernel := k, gridDim := g, blockDim := b, sharedMem := s,
            stream := q, args := args }, ?_, rfl, ⟨rfl, rfl, rfl⟩,
          ⟨rfl, rfl, rfl⟩, rfl, rfl, rfl, rfl⟩
  rw [launchKernel_trace_of_lt size_t_bits k g b s q args hs,
    kernelLaunch_of_lt size_t_bits hw k g b s q args hs]

/-- Witness of C2: a call with distinct grid and block extents and no kernel
arguments. -/
theorem launchKernel_request_fields_witness :
    (32 : Nat) ≤ 64 ∧ (1024 : Nat) < 2 ^ 32 ∧
    ∃ r : LaunchRequest Nat Nat Nat,
      (launchKernel 64 (3 : Nat) ⟨4, 5, 6⟩ ⟨7, 8, 9⟩ 1024 (2 : Nat)
        ([] : List Nat)).trace = [Effect.launch r] ∧
      r.kernel = 3 ∧
      (r.gridDim.x = 4 ∧ r.gridDim.y = 5 ∧ r.gridDim.z = 6) ∧
      (r.blockDim.x = 7 ∧ r.blockDim.y = 8 ∧ r.blockDim.z = 9) ∧
      r.sharedMem = 1024 ∧
      r.stream = 2 ∧
      r.args = [] ∧ r.args.length = ([] : List Nat).length :=
  ⟨by decide, by decide,
   launchKernel_request_fields 64 (by decide) 3 ⟨4, 5, 6⟩ ⟨7, 8, 9⟩ 1024 2 []
     (by decide)⟩

/-- C3: for every input, the trace of one call of launchKernel is exactly one
execution of the launch primitive: the primitive runs once, the trace holds no
other effect (no logging or hook, no error query, no synchronization), and the
call returns the unit value. -/
theorem launchKernel_single_launch {K Q A : Type} (size_t_bits : Nat) (k : K)
    (g b : dim3) (s : Nat) (q : Q) (args : List A) :
    (∃ r : LaunchRequest K Q A,
      (launchKernel size_t_bits k g b s q args).trace = [Effect.launch r]) ∧
    ((launchKernel size_t_bits k g b s q args).trace.filter Effect.isLaunch).length = 1 ∧
    (launchKernel size_t_bits k g b s q args).trace.length = 1 ∧
    Effect.log ∉ (launchKernel size_t_bits k g b s q args).trace ∧
    Effect.errorQuery ∉ (launchKernel size_t_bits k g b s q args).trace ∧
    (∀ t : Option Q,
      Effect.synchronize t ∉ (launchKernel size_t_bits k g b s q args).trace) ∧
    (launchKernel size_t_bits k g b s q args).value = () := by
  refine ⟨⟨_, rfl⟩, rfl, rfl, ?_, ?_, ?_, rfl⟩
  · simp [launchKernel, kernelLaunch]
  · simp [launchKernel, kernelLaunch]
  · intro t
    simp [launchKernel, kernelLaunch]

/-- C4: for every input of the parameter types, whether or not it meets the
preconditions, launchKernel hands the request as given to the launch primitive,
performs no error query and returns nothing, and every observation of the
runtime state after the call (the error status among them) is the one the
primitive itself produced for that request. -/
theorem launchKernel_defers_failure {K Q A σ ε : Type} (size_t_bits : Nat)
    (hw : 32 ≤ size_t_bits) (rt : Runtime K Q A σ) (status : σ → ε) (st : σ)
    (k : K) (g b : dim3) (s : Nat) (q : Q) (args : List A) (hs : s < 2 ^ 32) :
    (launchKernel size_t_bits k g b s q args).trace
      = [Effect.launch { kernel := k, gridDim := g, blockDim := b,
                         sharedMem := s, stream := q, args := args }] ∧
    status (exec rt (launchKernel size_t_bits k g b s q args).trace st)
      = status (rt (Effect.launch { kernel := k, gridDim := g, blockDim := b,
                                    sharedMem := s, stream := q, args := args }) st) ∧
    Effect.errorQuery ∉ (launchKernel size_t_bits k g b s q args).trace ∧
    (launchKernel size_t_bits k g b s q args).value = () := by
  have ht := launchKernel_trace_of_lt size_t_bits k g b s q args hs
  rw [kernelLaunch_of_lt size_t_bits hw k g b s q args hs] at ht
  refine ⟨ht, ?_, ?_, rfl⟩
  · rw [ht]; rfl
  · rw [ht]; simp

/-- Witness of C4: a request with a zero grid extent, a block extent of 2048
threads, 2^32 - 1 bytes of shared memory and stream handle 99. -/
theorem launchKernel_defers_failure_witness :
    (32 : Nat) ≤ 64 ∧ (4294967295 : Nat) < 2 ^ 32 ∧
    ((launchKernel 64 (1 : Nat) ⟨0, 1, 1⟩ ⟨2048, 1, 1⟩ 4294967295 (99 : Nat)
        [(5 : Nat)]).trace
      = [Effect.launch { kernel := 1, gridDim := ⟨0, 1, 1⟩, blockDim := ⟨2048, 1, 1⟩,
                         sharedMem := 4294967295, stream := 99, args := [5] }] ∧
    id (exec errorCodeRuntime
        (launchKernel 64 (1 : Nat) ⟨0, 1, 1⟩ ⟨2048, 1, 1⟩ 4294967295 (99 : Nat)
          [(5 : Nat)]).trace 0)
      = id (errorCodeRuntime
          (Effect.launch { kernel := 1, gridDim := ⟨0, 1, 1⟩, blockDim := ⟨2048, 1, 1⟩,
                           sharedMem := 4294967295, stream := 99, args := [5] }) 0) ∧
    Effect.errorQuery ∉
      (launchKernel 64 (1 : Nat) ⟨0, 1, 1⟩ ⟨2048, 1, 1⟩ 4294967295 (99 : Nat)
        [(5 : Nat)]).trace ∧
    (launchKernel 64 (1 : Nat) ⟨0, 1, 1⟩ ⟨2048, 1, 1⟩ 4294967295 (99 : Nat)
        [(5 : Nat)]).value = ()) :=
  ⟨by decide, by decide,
   launchKernel_defers_failure 64 (by decide) errorCodeRuntime id 0 1 ⟨0, 1, 1⟩
     ⟨2048, 1, 1⟩ 4294967295 99 [5] (by decide)⟩

/-! ## The wrapper on stream queues -/

/-- C5: with the runtime a map from stream handles to queues of pending
launches, a call launchKernel(k, g, b, s, q, args...) appends exactly one entry,
the request itself, after the entries already pending on stream q, and leaves
the queue of every other stream unchanged; this holds in the same way after any
history of earlier calls, the wrapper carrying nothing from one call to the
next. -/
theorem launchKernel_appends_to_stream {K Q A : Type} [DecidableEq Q]
    (size_t_bits : Nat) (hw : 32 ≤ size_t_bits)
    (other : Effect K Q A → Queues K Q A → Queues K Q A) (qs : Queues K Q A)
    (k : K) (g b : dim3) (s : Nat) (q : Q) (args : List A) (hs : s < 2 ^ 32) :
    exec (queueRuntime other) (launchKernel size_t_bits k g b s q args).trace qs q
      = qs q ++ [{ kernel := k, gridDim := g, blockDim := b, sharedMem := s,
                   stream := q, args := args }] ∧
    (∀ q2 : Q, q2 ≠ q →
      exec (queueRuntime other) (launchKernel size_t_bits k g b s q args).trace qs q2
        = qs q2) ∧
    (∀ earlier : List (LaunchRequest K Q A),
      exec (queueRuntime other) (launchKernel size_t_bits k g b s q args).trace
          (launchAll size_t_bits (queueRuntime other) earlier qs)
        = enqueue { kernel := k, gridDim := g, blockDim := b, sharedMem := s,
                    stream := q, args := args }
            (launchAll size_t_bits (queueRuntime other) earlier qs)) := by
  have ht := launchKernel_trace_of_lt size_t_bits k g b s q args hs
  rw [kernelLaunch_of_lt size_t_bits hw k g b s q args hs] at ht
  rw [ht]
  refine ⟨?_, ?_, ?_⟩
  · simp [exec, queueRuntime, enqueue]
  · intro q2 hq2
    simp [exec, queueRuntime, enqueue, hq2]
  · intro earlier
    rfl

/-- Witness of C5: a launch on stream 1 while stream 1 and stream 2 each hold
one pending launch. -/
theorem launchKernel_appends_to_stream_witness :
    (32 : Nat) ≤ 64 ∧ (256 : Nat) < 2 ^ 32 ∧
    (exec (queueRuntime (fun _ qs => qs))
        (launchKernel 64 (8 : Nat) ⟨3, 1, 1⟩ ⟨64, 1, 1⟩ 256 (1 : Nat) [(4 : Nat)]).trace
        (fun q => [{ kernel := 0, gridDim := ⟨1, 1, 1⟩, blockDim := ⟨1, 1, 1⟩,
                     sharedMem := 0, stream := q, args := [] }]) 1
      = (fun q => [{ kernel := 0, gridDim := ⟨1, 1, 1⟩, blockDim := ⟨1, 1, 1⟩,
                     sharedMem := 0, stream := q, args := [] }]) 1
          ++ [{ kernel := 8, gridDim := ⟨3, 1, 1⟩, blockDim := ⟨64, 1, 1⟩,
                sharedMem := 256, stream := 1, args := [4] }] ∧
    (∀ q2 : Nat, q2 ≠ 1 →
      exec (queueRuntime (fun _ qs => qs))
          (launchKernel 64 (8 : Nat) ⟨3, 1, 1⟩ ⟨64, 1, 1⟩ 256 (1 : Nat) [(4 : Nat)]).trace
          (fun q => [{ kernel := 0, gridDim := ⟨1, 1, 1⟩, blockDim := ⟨1, 1, 1⟩,
                       sharedMem := 0, stream := q, args := [] }]) q2
        = (fun q => [{ kernel := 0, gridDim := ⟨1, 1, 1⟩, blockDim := ⟨1, 1, 1⟩,
                       sharedMem := 0, stream := q, args := [] }]) q2) ∧
    (∀ earlier : List (LaunchRequest Nat Nat Nat),
      exec (queueRuntime (fun _ qs => qs))
          (launchKernel 64 (8 : Nat) ⟨3, 1, 1⟩ ⟨64, 1, 1⟩ 256 (1 : Nat) [(4 : Nat)]).trace
          (launchAll 64 (queueRuntime (fun _ qs => qs)) earlier
            (fun q => [{ kernel := 0, gridDim := ⟨1, 1, 1⟩, blockDim := ⟨1, 1, 1⟩,
                         sharedMem := 0, stream := q, args := [] }]))
        = enqueue { kernel := 8, gridDim := ⟨3, 1, 1⟩, blockDim := ⟨64, 1, 1⟩,
                    sharedMem := 256, stream := 1, args := [4] }
            (launchAll 64 (queueRuntime (fun _ qs => qs)) earlier
              (fun q => [{ kernel := 0, gridDim := ⟨1, 1, 1⟩, blockDim := ⟨1, 1, 1⟩,
                           sharedMem := 0, stream := q, args := [] }])))) :=
  ⟨by decide, by decide,
   launchKernel_appends_to_stream 64 (by decide) (fun _ qs => qs)
     (fun q => [{ kernel := 0, gridDim := ⟨1, 1, 1⟩, blockDim := ⟨1, 1, 1⟩,
                  sharedMem := 0, stream := q, args := [] }])
     8 ⟨3, 1, 1⟩ ⟨64, 1, 1⟩ 256 1 [4] (by decide)⟩

/-- C7: for every finite sequence of launch requests (shared-memory sizes of
type unsigned) issued one after another through launchKernel, the resulting
runtime state is the one obtained by issuing the same requests in the same
order directly through the launch primitive, for every runtime and starting
state; and on stream queues the requests addressed to a stream q are pending on
q, after what was pending before, in call order. -/
theorem launchKernel_sequence_eq_direct {K Q A σ : Type} [DecidableEq Q]
    (size_t_bits : Nat) (hw : 32 ≤ size_t_bits)
    (rs : List (LaunchRequest K Q A)) (hrs : ∀ r ∈ rs, r.sharedMem < 2 ^ 32) :
    (∀ (rt : Runtime K Q A σ) (st : σ),
      launchAll size_t_bits rt rs st = directAll size_t_bits rt rs st) ∧
    (∀ (other : Effect K Q A → Queues K Q A → Queues K Q A) (qs : Queues K Q A)
       (q : Q),
      launchAll size_t_bits (queueRuntime other) rs qs q
        = qs q ++ rs.filter (fun r => decide (r.stream = q))) := by
  refine ⟨?_, fun other => launchAll_queues size_t_bits hw other rs hrs⟩
  intro rt
  induction rs with
  | nil => intro st; rfl
  | cons r rs ih =>
    intro st
    have hr : r.sharedMem < 2 ^ 32 := hrs r (List.mem_cons_self r rs)
    unfold launchAll directAll
    rw [exec_launchKernelOf size_t_bits rt r st hr]
    exact ih (fun x hx => hrs x (List.mem_cons_of_mem r hx)) _

/-- Witness of C7: the three sample requests, on a 64-bit size_t, with the last
error code as the state of the arbitrary runtime. -/
theorem launchKernel_sequence_eq_direct_witness :
    (32 : Nat) ≤ 64 ∧ (∀ r ∈ sampleRequests, r.sharedMem < 2 ^ 32) ∧
    ((∀ (rt : Runtime Nat Nat Nat Nat) (st : Nat),
      launchAll 64 rt sampleRequests st = directAll 64 rt sampleRequests st) ∧
    (∀ (other : Effect Nat Nat Nat → Queues Nat Nat Nat → Queues Nat Nat Nat)
       (qs : Queues Nat Nat Nat) (q : Nat),
      launchAll 64 (queueRuntime other) sampleRequests qs q
        = qs q ++ sampleRequests.filter (fun r => decide (r.stream = q)))) :=
  ⟨by decide, by decide,
   launchKernel_sequence_eq_direct 64 (by decide) sampleRequests (by decide)⟩

/-- C8: for every s with 0 <= s < 2^32 (and a size_t of at least 32 bits) the
byte count the launch primitive receives from launchKernel(k, g, b, s, q,
args...) is s itself, and it receives exactly that one count. -/
theorem launchKernel_shared_memory_exact {K Q A : Type} (size_t_bits : Nat)
    (hw : 32 ≤ size_t_bits) (k : K) (g b : dim3) (s : Nat) (q : Q)
    (args : List A) (hs : s < 2 ^ 32) :
    receivedSharedMem (launchKernel size_t_bits k g b s q args).trace = [s] := by
  rw [launchKernel_trace_of_lt size_t_bits k g b s q args hs,
    kernelLaunch_of_lt size_t_bits hw k g b s q args hs]
  rfl

/-- Witness of C8: the largest value of type unsigned, far above a 48 Ki
budget, reaches a 64-bit size_t unchanged. -/
theorem launchKernel_shared_memory_exact_witness :
    (32 : Nat) ≤ 64 ∧ (4294967295 : Nat) < 2 ^ 32 ∧
    receivedSharedMem
      (launchKernel 64 (1 : Nat) ⟨1, 1, 1⟩ ⟨1, 1, 1⟩ 4294967295 (0 : Nat)
        ([] : List Nat)).trace = [4294967295] :=
  ⟨by decide, by decide,
   launchKernel_shared_memory_exact 64 (by decide) 1 ⟨1, 1, 1⟩ ⟨1, 1, 1⟩
     4294967295 0 [] (by decide)⟩

end cuda
